import Mathlib

/-
Verification of the session core in source/3rdparty/won/auth/Session.cpp.

The embedding models the C++ source shallowly:
  * `SessionData` mirrors the fields of the C++ `SessionData` struct that the
    code under Session.cpp reads or writes (the lock `mCrit` is omitted: the
    model is sequential, every critical section runs atomically).
  * machine integers are modelled as `Nat` (16-bit fields carry side
    conditions `< 65536` where they matter); `mRefCt` is a C `long`, modelled
    as `Int`.
  * key and certificate pointers (`SymmetricKey*`, `AuthCertificateBase*`)
    are opaque heap objects, modelled as `Option Nat` (`none` = NULL, `some k`
    = pointer to object `k`).
  * the handle / reference-count machinery is modelled by an explicit `World`:
    an association list of records keyed by address, a bump allocator for
    fresh addresses, the global id counter `gNextSessionId`, and lists of
    key / certificate objects that have been `delete`d so far.
-/

/-- Encryption attributes, as used by Session.cpp
(`mEncryptMode`, `mIsSequenced`, `mIsSession`, `mEncryptAll`).
The defining header is not in the sources; the field list and the two named
mode tags are taken from their uses in Session.cpp.  The mode is an enum tag,
modelled as `Nat`; only the distinctness of the tags matters here. -/
structure EncryptAttributes where
  mEncryptMode : Nat
  mIsSequenced : Bool
  mIsSession : Bool
  mEncryptAll : Bool
deriving DecidableEq, Repr

/-- Enum tag `ENCRYPT_NONE` (value arbitrary, only distinctness is used). -/
def ENCRYPT_NONE : Nat := 0

/-- Enum tag `ENCRYPT_BLOWFISH` (value arbitrary, only distinctness is used). -/
def ENCRYPT_BLOWFISH : Nat := 1

/-- Modelled from the spec: the header defining the default constructor of
`EncryptAttributes` is not in src; the spec calls a default-constructed
record's attributes "default (no-encryption) attributes". -/
def EncryptAttributes.defaultAttr : EncryptAttributes :=
  { mEncryptMode := ENCRYPT_NONE, mIsSequenced := false,
    mIsSession := false, mEncryptAll := false }

/-- The payload of one session record, mirroring C++ `SessionData`
(Session.cpp lines 51-65).  `mKeyP`/`mCertP` are owned pointers
(`none` = NULL).  `mLastAction` is a `time_t`, modelled as `Nat`. -/
structure SessionData where
  mRefCt : Int
  mId : Nat
  mIsRemote : Bool
  mEncryptAttr : EncryptAttributes
  mKeyP : Option Nat
  mCertP : Option Nat
  mLastAction : Nat
  mRecvSeq : Nat
  mSendSeq : Nat
  mRecvCt : Nat
  mSendCt : Nat
  mProcCt : Nat
deriving DecidableEq, Repr

/-- `SessionData::SessionData()` (lines 51-65): reference count 1, id 0, not
remote, default attributes, NULL key and certificate, zero timestamp,
zero sequence numbers, zero counters. -/
def SessionData.initData : SessionData :=
  { mRefCt := 1, mId := 0, mIsRemote := false,
    mEncryptAttr := EncryptAttributes.defaultAttr,
    mKeyP := none, mCertP := none, mLastAction := 0,
    mRecvSeq := 0, mSendSeq := 0, mRecvCt := 0, mSendCt := 0, mProcCt := 0 }

/-- `Session::IsValid` (lines 148-155): false when `mId == 0`; otherwise,
when the mode is not `ENCRYPT_NONE`, true iff both `mKeyP` and `mCertP`
are non-NULL; when the mode is `ENCRYPT_NONE`, true. -/
def Session.IsValid (d : SessionData) : Bool :=
  if d.mId = 0 then false
  else if d.mEncryptAttr.mEncryptMode ≠ ENCRYPT_NONE then
    d.mKeyP.isSome && d.mCertP.isSome
  else true

/-- `Session::TestSetRecvSeq` (lines 196-205).  `theSeq` is an
`unsigned short`; `mRecvSeq + 1` is computed after integral promotion to
`int`, hence without 16-bit wraparound, which `Nat` arithmetic reproduces.
Returns the C++ return value together with the updated record. -/
def Session.TestSetRecvSeq (d : SessionData) (theSeq : Nat) (isReliable : Bool) :
    Bool × SessionData :=
  let aRet : Bool :=
    if isReliable then decide (d.mRecvSeq + 1 = theSeq) else decide (d.mRecvSeq < theSeq)
  (aRet, if aRet then { d with mRecvSeq := theSeq } else d)

/-- `Session::TestSetSendSeq` (lines 208-217), the send-direction analogue. -/
def Session.TestSetSendSeq (d : SessionData) (theSeq : Nat) (isReliable : Bool) :
    Bool × SessionData :=
  let aRet : Bool :=
    if isReliable then decide (d.mSendSeq + 1 = theSeq) else decide (d.mSendSeq < theSeq)
  (aRet, if aRet then { d with mSendSeq := theSeq } else d)

/-- Modelled from the spec: `Touch` is declared in the missing header
`Session.h`; the spec says it "updates `lastAction` to the current time,
under the record's lock".  The current time is passed in as `now`. -/
def Session.Touch (d : SessionData) (now : Nat) : SessionData :=
  { d with mLastAction := now }

/-- `Session::GetNextSessionId` (lines 121-127) acting on the global counter
`gNextSessionId` (an `unsigned short`, so the post-increment wraps at 2^16):
returns the current counter value and the new counter value, where 0 is
skipped to 1. -/
def Session.GetNextSessionId (g : Nat) : Nat × Nat :=
  let aRet := g
  let g1 := (g + 1) % 65536
  (aRet, if g1 = 0 then 1 else g1)

/-- Initial value of `gNextSessionId` (line 44: starts at 1, 0 disallowed). -/
def gNextSessionIdInit : Nat := 1

/-- Counter state after `n` calls to `GetNextSessionId`, starting from the
initial value 1. -/
def genState : Nat → Nat
  | 0 => gNextSessionIdInit
  | n + 1 => (Session.GetNextSessionId (genState n)).2

/-- Value returned by the `(n+1)`-st call to `GetNextSessionId` (0-indexed). -/
def genRet (n : Nat) : Nat := (Session.GetNextSessionId (genState n)).1

/-- Lookup in an address-keyed association list of records (models pointer
dereference `mRefP->`). -/
def heapLookup : List (Nat × SessionData) → Nat → Option SessionData
  | [], _ => none
  | (a, d) :: t, b => if b = a then some d else heapLookup t b

/-- Replace the record stored at address `b` (models in-place mutation
through `mRefP->`).  Leaves the list unchanged when `b` is not present. -/
def heapUpdate : List (Nat × SessionData) → Nat → SessionData → List (Nat × SessionData)
  | [], _, _ => []
  | (a, d) :: t, b, v => if a = b then (a, v) :: t else (a, d) :: heapUpdate t b v

/-- Remove the record stored at address `b` (models `delete mRefP`). -/
def heapRemove : List (Nat × SessionData) → Nat → List (Nat × SessionData)
  | [], _ => []
  | (a, d) :: t, b => if a = b then t else (a, d) :: heapRemove t b

/-- Global state of the model: the live records (keyed by address), the bump
allocator for fresh addresses, the counter `gNextSessionId`, and the key /
certificate objects `delete`d so far (in deletion order). -/
structure World where
  heap : List (Nat × SessionData)
  nextAddr : Nat
  gNext : Nat
  freedKeys : List Nat
  freedCerts : List Nat
deriving DecidableEq, Repr

/-- Address of the record of the process-wide `gInvalidSession` (line 45),
allocated before any other record. -/
def sentinelAddr : Nat := 0

/-- The process state at startup: `gInvalidSession` has been constructed by
the private constructor `Session(0)` (lines 96-100) — a fresh record with
`mId = 0` (which `SessionData()` already gives) and reference count 1 — and
`gNextSessionId` is 1 (line 44). -/
def World.initWorld : World :=
  { heap := [(sentinelAddr, SessionData.initData)], nextAddr := 1,
    gNext := 1, freedKeys := [], freedCerts := [] }

/-- `delete mRefP` (destructor `~SessionData`, lines 69-73): removes the
record and `delete`s its owned key and certificate (`delete NULL` is a
no-op, hence `Option.toList`). -/
def World.deleteRec (w : World) (h : Nat) (d : SessionData) : World :=
  { w with heap := heapRemove w.heap h,
           freedKeys := w.freedKeys ++ d.mKeyP.toList,
           freedCerts := w.freedCerts ++ d.mCertP.toList }

/-- The body of `Session::Init` after the detach check (lines 172-192): set
id and remote flag from `theId`, store attributes, key and certificate,
zero both sequence numbers, and `Touch()` (modelled from the spec as
`mLastAction := now`). -/
def Session.InitBody (w : World) (h : Nat) (now : Nat) (theAttr : EncryptAttributes)
    (theKeyP theCertP : Option Nat) (theId : Nat) : World :=
  match heapLookup w.heap h with
  | none => w
  | some d =>
    if 0 < theId then
      let d1 := { d with mId := theId, mIsRemote := true, mEncryptAttr := theAttr,
                         mKeyP := theKeyP, mCertP := theCertP,
                         mRecvSeq := 0, mSendSeq := 0, mLastAction := now }
      { w with heap := heapUpdate w.heap h d1 }
    else
      let d1 := { d with mId := (Session.GetNextSessionId w.gNext).1, mIsRemote := false,
                         mEncryptAttr := theAttr, mKeyP := theKeyP, mCertP := theCertP,
                         mRecvSeq := 0, mSendSeq := 0, mLastAction := now }
      { w with heap := heapUpdate w.heap h d1,
               gNext := (Session.GetNextSessionId w.gNext).2 }

/-- `Session::Init` (lines 158-193).  When the record is shared
(`mRefCt > 1`) the handle detaches first: it decrements the shared record's
count, deletes it if the count dropped to 0 or below, and rebinds to a
freshly allocated `SessionData`; then the init body runs on the bound
record.  Returns the new world and the address the handle is bound to
afterwards. -/
def Session.InitFull (w : World) (h : Nat) (now : Nat) (theAttr : EncryptAttributes)
    (theKeyP theCertP : Option Nat) (theId : Nat) : World × Nat :=
  match heapLookup w.heap h with
  | none => (Session.InitBody w h now theAttr theKeyP theCertP theId, h)
  | some d =>
    if 1 < d.mRefCt then
      let d1 := { d with mRefCt := d.mRefCt - 1 }
      let w1 := if d.mRefCt - 1 ≤ 0 then World.deleteRec w h d
                else { w with heap := heapUpdate w.heap h d1 }
      let a := w1.nextAddr
      let w2 := { w1 with heap := (a, SessionData.initData) :: w1.heap,
                          nextAddr := w1.nextAddr + 1 }
      (Session.InitBody w2 a now theAttr theKeyP theCertP theId, a)
    else
      (Session.InitBody w h now theAttr theKeyP theCertP theId, h)

/-- The initializing constructor (lines 87-92): `mRefP = new SessionData`
followed by `Init(...)`.  Returns the new world and the new handle. -/
def Session.ctorInit (w : World) (now : Nat) (theAttr : EncryptAttributes)
    (theKeyP theCertP : Option Nat) (theId : Nat) : World × Nat :=
  let a := w.nextAddr
  let w1 := { w with heap := (a, SessionData.initData) :: w.heap, nextAddr := w.nextAddr + 1 }
  Session.InitFull w1 a now theAttr theKeyP theCertP theId

/-- The default constructor (lines 79-83): binds to `gInvalidSession`'s
record and increments its reference count. -/
def Session.defaultCtor (w : World) : World × Nat :=
  match heapLookup w.heap sentinelAddr with
  | none => (w, sentinelAddr)
  | some d =>
      let d1 := { d with mRefCt := d.mRefCt + 1 }
      ({ w with heap := heapUpdate w.heap sentinelAddr d1 }, sentinelAddr)

/-- The copy constructor (lines 104-108): binds to the source handle's
record and increments its reference count. -/
def Session.copyCtor (w : World) (src : Nat) : World × Nat :=
  match heapLookup w.heap src with
  | none => (w, src)
  | some d =>
      let d1 := { d with mRefCt := d.mRefCt + 1 }
      ({ w with heap := heapUpdate w.heap src d1 }, src)

/-- The destructor (lines 112-116): decrements the bound record's reference
count and deletes the record when the count reaches 0 or below. -/
def Session.dtor (w : World) (h : Nat) : World :=
  match heapLookup w.heap h with
  | none => w
  | some d =>
      if d.mRefCt - 1 ≤ 0 then World.deleteRec w h d
      else
        let d1 := { d with mRefCt := d.mRefCt - 1 }
        { w with heap := heapUpdate w.heap h d1 }

/-- Assignment `operator=` (lines 133-145): when the two handles are bound
to different records, increment the source record's count, decrement (and
possibly delete) the old record, and rebind.  Returns the new world and the
address the assigned-to handle is bound to. -/
def Session.assign (w : World) (dst src : Nat) : World × Nat :=
  if dst = src then (w, dst)
  else
    let w1 := (Session.copyCtor w src).1
    (Session.dtor w1 dst, src)

/-- One item streamed to `os` by `Session::Dump`.  `keyObj k` is the result
of streaming `*(a SymmetricKey pointer to object k)`; `certObj c` would be
the result of streaming a certificate object (the verbose branch of the
source never produces one); `timeText t` is `ctime(t)`. -/
inductive OutTok where
  | text : String → OutTok
  | num : Nat → OutTok
  | keyObj : Nat → OutTok
  | certObj : Nat → OutTok
  | attrObj : EncryptAttributes → OutTok
  | timeText : Nat → OutTok
deriving DecidableEq, Repr

/-- The verbose branch of `Session::Dump` (lines 231-246), as the list of
items streamed to `os`.  Streaming `endl` and spacing are dropped; what is
kept is which labels appear and which object is streamed after each label.
Line 244 of the source streams `*(mRefP->mKeyP)` under the "Certificate: "
label; when `mCertP` is non-NULL but `mKeyP` is NULL that dereferences a
NULL pointer, modelled as `none`. -/
def Session.DumpVerbose (d : SessionData) : Option (List OutTok) :=
  let head := [OutTok.text "Session (Id=", OutTok.num d.mId,
               OutTok.text "  LastAction  = ", OutTok.timeText d.mLastAction,
               OutTok.text "  EncryptAttr = ", OutTok.attrObj d.mEncryptAttr,
               OutTok.text "  RecvSeq     = ", OutTok.num d.mRecvSeq,
               OutTok.text "  SendSeq     = ", OutTok.num d.mSendSeq,
               OutTok.text "  SymmetricKey: "]
  let keyPart := match d.mKeyP with
    | some k => [OutTok.keyObj k]
    | none => [OutTok.text "NULL"]
  let certPart : Option (List OutTok) := match d.mCertP with
    | some _ =>
        match d.mKeyP with
        | some k => some [OutTok.keyObj k]
        | none => none
    | none => some [OutTok.text "NULL"]
  match certPart with
  | some cp => some (head ++ keyPart ++ [OutTok.text "Certificate: "] ++ cp)
  | none => none

/-- Blowfish attributes, used in concrete examples. -/
def blowfishAttr : EncryptAttributes :=
  { mEncryptMode := ENCRYPT_BLOWFISH, mIsSequenced := false,
    mIsSession := false, mEncryptAll := false }

/-- A record with id 7, Blowfish mode, and no key or certificate, used in
concrete examples. -/
def exBlowfishNoKey : SessionData :=
  { SessionData.initData with mId := 7, mEncryptAttr := blowfishAttr }

/-- A record shared by two handles (reference count 2), used in concrete
examples. -/
def sharedRec : SessionData :=
  { SessionData.initData with mRefCt := 2, mId := 9 }

/-- A world holding the sentinel and one shared record at address 1, used in
concrete examples. -/
def wShared : World :=
  { heap := [(sentinelAddr, SessionData.initData), (1, sharedRec)],
    nextAddr := 2, gNext := 1, freedKeys := [], freedCerts := [] }

/-- The leak scenario: construct-and-initialize an exclusively owned session
holding key 10 and certificate 20, re-initialize the same (unshared) handle
with key 11 and certificate 21, then destroy the handle. -/
def leakTraceWorld : World :=
  let p1 := Session.ctorInit World.initWorld 0 blowfishAttr (some 10) (some 20) 5
  let p2 := Session.InitFull p1.1 p1.2 1 blowfishAttr (some 11) (some 21) 6
  Session.dtor p2.1 p2.2

/-- A record with certificate present and key absent, used in concrete
examples. -/
def certOnlyRec : SessionData :=
  { SessionData.initData with mId := 8, mCertP := some 7 }

/-- A record with both key 3 and certificate 7 present, used in concrete
examples. -/
def keyCertRec : SessionData :=
  { SessionData.initData with mId := 8, mKeyP := some 3, mCertP := some 7 }

theorem genState_eq (n : Nat) : genState n = n % 65535 + 1 := by
  induction n with
  | zero => rfl
  | succ n ih =>
      show (Session.GetNextSessionId (genState n)).2 = (n + 1) % 65535 + 1
      rw [ih]
      unfold Session.GetNextSessionId
      have hm : n % 65535 < 65535 := Nat.mod_lt _ (by norm_num)
      by_cases h : n % 65535 = 65534
      · have h1 : (n % 65535 + 1 + 1) % 65536 = 0 := by rw [h]
        have h2 : (n + 1) % 65535 = 0 := by omega
        simp [h1, h2]
      · have h1 : n % 65535 + 1 + 1 < 65536 := by omega
        have h2 : (n + 1) % 65535 = n % 65535 + 1 := by omega
        have h3 : (n % 65535 + 1 + 1) % 65536 = n % 65535 + 1 + 1 :=
          Nat.mod_eq_of_lt h1
        simp only [h3, h2]
        have h4 : ¬(n % 65535 + 1 + 1 = 0) := by omega
        simp [h4]

theorem genRet_eq (n : Nat) : genRet n = n % 65535 + 1 := by
  unfold genRet Session.GetNextSessionId
  rw [genState_eq]

theorem heapLookup_update_ne (l : List (Nat × SessionData)) (b : Nat)
    (v : SessionData) (a : Nat) (h : a ≠ b) :
    heapLookup (heapUpdate l b v) a = heapLookup l a := by
  induction l with
  | nil => rfl
  | cons p t ih =>
      obtain ⟨k, d⟩ := p
      by_cases hk : k = b
      · subst hk
        simp [heapUpdate, heapLookup, if_neg h]
      · simp only [heapUpdate, if_neg hk, heapLookup]
        by_cases ha : a = k
        · simp [ha]
        · simp [ha, ih]

theorem heapLookup_update_self (l : List (Nat × SessionData)) (b : Nat)
    (v d : SessionData) (h : heapLookup l b = some d) :
    heapLookup (heapUpdate l b v) b = some v := by
  induction l with
  | nil => exact absurd h (by simp [heapLookup])
  | cons p t ih =>
      obtain ⟨k, d0⟩ := p
      by_cases hk : k = b
      · subst hk
        simp [heapUpdate, heapLookup]
      · have hb : ¬(b = k) := fun hh => hk hh.symm
        simp only [heapUpdate, if_neg hk, heapLookup, if_neg hb]
        simp only [heapLookup, if_neg hb] at h
        exact ih h

theorem heapLookup_update_cases (l : List (Nat × SessionData)) (b : Nat)
    (v : SessionData) (a : Nat) (d : SessionData)
    (h : heapLookup (heapUpdate l b v) a = some d) :
    (a = b ∧ d = v ∧ (heapLookup l b).isSome) ∨ heapLookup l a = some d := by
  induction l with
  | nil => exact Or.inr (by simpa [heapUpdate] using h)
  | cons p t ih =>
      obtain ⟨k, d0⟩ := p
      by_cases hk : k = b
      · have hu : heapUpdate ((k, d0) :: t) b v = (k, v) :: t := by
          simp [heapUpdate, hk]
        rw [hu] at h
        by_cases ha : a = k
        · have hl : heapLookup ((k, v) :: t) a = some v := by simp [heapLookup, ha]
          rw [hl] at h
          refine Or.inl ⟨ha.trans hk, (Option.some_inj.mp h).symm, ?_⟩
          simp [heapLookup, hk]
        · have hl : heapLookup ((k, v) :: t) a = heapLookup t a := by
            simp [heapLookup, ha]
          rw [hl] at h
          exact Or.inr (by simp [heapLookup, ha, h])
      · have hu : heapUpdate ((k, d0) :: t) b v = (k, d0) :: heapUpdate t b v := by
          simp [heapUpdate, hk]
        rw [hu] at h
        by_cases ha : a = k
        · have hl : heapLookup ((k, d0) :: heapUpdate t b v) a = some d0 := by
            simp [heapLookup, ha]
          rw [hl] at h
          exact Or.inr (by simp [heapLookup, ha, h])
        · have hl : heapLookup ((k, d0) :: heapUpdate t b v) a =
              heapLookup (heapUpdate t b v) a := by
            simp [heapLookup, ha]
          rw [hl] at h
          rcases ih h with hc | hc
          · refine Or.inl ⟨hc.1, hc.2.1, ?_⟩
            have hbk : ¬(b = k) := fun hh => hk hh.symm
            simpa [heapLookup, hbk] using hc.2.2
          · exact Or.inr (by simp [heapLookup, ha, hc])

theorem heapLookup_remove_ne (l : List (Nat × SessionData)) (b : Nat)
    (a : Nat) (h : a ≠ b) :
    heapLookup (heapRemove l b) a = heapLookup l a := by
  induction l with
  | nil => rfl
  | cons p t ih =>
      obtain ⟨k, d⟩ := p
      by_cases hk : k = b
      · subst hk
        simp [heapRemove, heapLookup, if_neg h]
      · simp only [heapRemove, if_neg hk, heapLookup]
        by_cases ha : a = k
        · simp [ha]
        · simp [ha, ih]

/-- Claim C1: for every record and 16-bit `seq`, `TestSetRecvSeq` (and
likewise `TestSetSendSeq`) returns true iff the acceptance rule holds — in
the reliable case iff `seq` equals the stored sequence number plus 1, in the
unreliable case iff `seq` is strictly greater than the stored sequence
number — and the stored number is set to `seq` exactly when the call
returns true, the record staying unchanged when it returns false. -/
theorem Session.testSet_seq_acceptance (d : SessionData) (s : Nat) (rel : Bool) :
    ((Session.TestSetRecvSeq d s rel).1 = true ↔
      ((rel = true ∧ s = d.mRecvSeq + 1) ∨ (rel = false ∧ d.mRecvSeq < s))) ∧
    ((Session.TestSetRecvSeq d s rel).1 = true →
      (Session.TestSetRecvSeq d s rel).2 = { d with mRecvSeq := s }) ∧
    ((Session.TestSetRecvSeq d s rel).1 = false →
      (Session.TestSetRecvSeq d s rel).2 = d) ∧
    ((Session.TestSetSendSeq d s rel).1 = true ↔
      ((rel = true ∧ s = d.mSendSeq + 1) ∨ (rel = false ∧ d.mSendSeq < s))) ∧
    ((Session.TestSetSendSeq d s rel).1 = true →
      (Session.TestSetSendSeq d s rel).2 = { d with mSendSeq := s }) ∧
    ((Session.TestSetSendSeq d s rel).1 = false →
      (Session.TestSetSendSeq d s rel).2 = d) := by
  refine ⟨?_, ?_, ?_, ?_, ?_, ?_⟩
  · cases rel <;> simp [Session.TestSetRecvSeq] <;> omega
  · intro h
    simp only [Session.TestSetRecvSeq] at h ⊢
    rw [h]
    simp
  · intro h
    simp only [Session.TestSetRecvSeq] at h ⊢
    rw [h]
    simp
  · cases rel <;> simp [Session.TestSetSendSeq] <;> omega
  · intro h
    simp only [Session.TestSetSendSeq] at h ⊢
    rw [h]
    simp
  · intro h
    simp only [Session.TestSetSendSeq] at h ⊢
    rw [h]
    simp

/-- Witness for C1: concrete acceptance and rejection instances obtained by
applying the acceptance theorem. -/
theorem Session.testSet_seq_acceptance_witness :
    ((Session.TestSetRecvSeq SessionData.initData 1 true).1 = true →
      (Session.TestSetRecvSeq SessionData.initData 1 true).2 =
        { SessionData.initData with mRecvSeq := 1 }) ∧
    ((Session.TestSetRecvSeq SessionData.initData 3 true).1 = false →
      (Session.TestSetRecvSeq SessionData.initData 3 true).2 = SessionData.initData) :=
  ⟨(Session.testSet_seq_acceptance SessionData.initData 1 true).2.1,
   (Session.testSet_seq_acceptance SessionData.initData 3 true).2.2.1⟩

/-- Claim C2: `IsValid` returns false if the record's identifier is 0;
otherwise it returns true when the encryption mode is None, and when the
mode is not None it returns true iff both the key and the certificate are
present. -/
theorem Session.isValid_iff (d : SessionData) :
    Session.IsValid d = true ↔
      (d.mId ≠ 0 ∧ (d.mEncryptAttr.mEncryptMode = ENCRYPT_NONE ∨
        (d.mKeyP.isSome = true ∧ d.mCertP.isSome = true))) := by
  unfold Session.IsValid
  by_cases h0 : d.mId = 0
  · simp [h0]
  · by_cases hm : d.mEncryptAttr.mEncryptMode = ENCRYPT_NONE <;> simp [h0, hm]

/-- Witness for C2: a Blowfish record with key and certificate absent is
invalid although its identifier is non-zero, by the validity
characterization. -/
theorem Session.isValid_iff_witness :
    Session.IsValid exBlowfishNoKey = false := by
  have hc := Session.isValid_iff exBlowfishNoKey
  revert hc
  decide

/-- Claim C10: in a record whose stored receive (resp. send) sequence number
is 65535, a reliable test-set rejects every 16-bit `seq` (including 0): the
comparison `stored + 1 == seq` is computed in promoted integer arithmetic,
and 65536 is not a 16-bit value. -/
theorem Session.reliable_seq_cap (d : SessionData) (s : Nat) (hs : s < 65536) :
    (d.mRecvSeq = 65535 → (Session.TestSetRecvSeq d s true).1 = false) ∧
    (d.mSendSeq = 65535 → (Session.TestSetSendSeq d s true).1 = false) := by
  constructor <;> intro h <;>
    simp [Session.TestSetRecvSeq, Session.TestSetSendSeq, h] <;> omega

/-- Witness for C10: at stored sequence 65535 the reliable test-set rejects
seq 0. -/
theorem Session.reliable_seq_cap_witness :
    ((0 : Nat) < 65536 ∧
      ({ SessionData.initData with mRecvSeq := 65535 } : SessionData).mRecvSeq = 65535) ∧
    (Session.TestSetRecvSeq { SessionData.initData with mRecvSeq := 65535 } 0 true).1 = false :=
  ⟨by decide,
   (Session.reliable_seq_cap { SessionData.initData with mRecvSeq := 65535 } 0
      (by decide)).1 (by decide)⟩

/-- Claim C4: the identifier generator never returns 0; among the first
`N ≤ 65535` calls all returned values are pairwise distinct; and the
returned sequence is periodic with period exactly 65535 (the counter wraps,
skipping 0). -/
theorem Session.nextSessionId_props :
    (∀ n, genRet n ≠ 0) ∧
    (∀ N i j, N ≤ 65535 → i < j → j < N → genRet i ≠ genRet j) ∧
    (∀ n, genRet (n + 65535) = genRet n) := by
  refine ⟨?_, ?_, ?_⟩
  · intro n
    rw [genRet_eq]
    omega
  · intro N i j hN hij hjN
    rw [genRet_eq, genRet_eq]
    have hi : i % 65535 = i := Nat.mod_eq_of_lt (by omega)
    have hj : j % 65535 = j := Nat.mod_eq_of_lt (by omega)
    omega
  · intro n
    rw [genRet_eq, genRet_eq]
    omega

/-- Witness for C4: the first and second returned identifiers differ, by the
pairwise-distinctness part of the generator theorem. -/
theorem Session.nextSessionId_props_witness :
    ((2 : Nat) ≤ 65535 ∧ (0 : Nat) < 1 ∧ (1 : Nat) < 2) ∧ genRet 0 ≠ genRet 1 :=
  ⟨by decide,
   Session.nextSessionId_props.2.1 2 0 1 (by decide) (by decide) (by decide)⟩

theorem testSetRecv_fst_iff (d : SessionData) (s : Nat) (rel : Bool) :
    ((Session.TestSetRecvSeq d s rel).1 = true ↔
      ((rel = true ∧ s = d.mRecvSeq + 1) ∨ (rel = false ∧ d.mRecvSeq < s))) := by
  cases rel <;> simp [Session.TestSetRecvSeq] <;> omega

theorem testSetRecv_snd_of_true (d : SessionData) (s : Nat) (rel : Bool)
    (h : (Session.TestSetRecvSeq d s rel).1 = true) :
    (Session.TestSetRecvSeq d s rel).2 = { d with mRecvSeq := s } := by
  simp only [Session.TestSetRecvSeq] at h ⊢
  rw [h]
  simp

theorem testSetRecv_snd_of_false (d : SessionData) (s : Nat) (rel : Bool)
    (h : (Session.TestSetRecvSeq d s rel).1 = false) :
    (Session.TestSetRecvSeq d s rel).2 = d := by
  simp only [Session.TestSetRecvSeq] at h ⊢
  rw [h]
  simp

theorem testSetSend_fst_iff (d : SessionData) (s : Nat) (rel : Bool) :
    ((Session.TestSetSendSeq d s rel).1 = true ↔
      ((rel = true ∧ s = d.mSendSeq + 1) ∨ (rel = false ∧ d.mSendSeq < s))) := by
  cases rel <;> simp [Session.TestSetSendSeq] <;> omega

theorem testSetSend_snd_of_true (d : SessionData) (s : Nat) (rel : Bool)
    (h : (Session.TestSetSendSeq d s rel).1 = true) :
    (Session.TestSetSendSeq d s rel).2 = { d with mSendSeq := s } := by
  simp only [Session.TestSetSendSeq] at h ⊢
  rw [h]
  simp

theorem testSetSend_snd_of_false (d : SessionData) (s : Nat) (rel : Bool)
    (h : (Session.TestSetSendSeq d s rel).1 = false) :
    (Session.TestSetSendSeq d s rel).2 = d := by
  simp only [Session.TestSetSendSeq] at h ⊢
  rw [h]
  simp

theorem heapLookup_none_of_not_mem (l : List (Nat × SessionData)) (b : Nat)
    (h : b ∉ l.map Prod.fst) : heapLookup l b = none := by
  induction l with
  | nil => rfl
  | cons p t ih =>
      obtain ⟨k, d⟩ := p
      simp only [List.map_cons, List.mem_cons] at h
      push_neg at h
      simp only [heapLookup, if_neg h.1]
      exact ih h.2

theorem heapUpdate_map_fst (l : List (Nat × SessionData)) (b : Nat) (v : SessionData) :
    (heapUpdate l b v).map Prod.fst = l.map Prod.fst := by
  induction l with
  | nil => rfl
  | cons p t ih =>
      obtain ⟨k, d⟩ := p
      by_cases hk : k = b
      · simp [heapUpdate, hk]
      · simp [heapUpdate, hk, ih]

theorem heapRemove_lookup_self_nodup (l : List (Nat × SessionData)) (b : Nat)
    (hnd : (l.map Prod.fst).Nodup) : heapLookup (heapRemove l b) b = none := by
  induction l with
  | nil => rfl
  | cons p t ih =>
      obtain ⟨k, d⟩ := p
      simp only [List.map_cons, List.nodup_cons] at hnd
      by_cases hk : k = b
      · subst hk
        simp only [heapRemove, if_pos rfl]
        exact heapLookup_none_of_not_mem t k hnd.1
      · simp only [heapRemove, if_neg hk, heapLookup]
        rw [if_neg (fun hh => hk hh.symm)]
        exact ih hnd.2

theorem copyCtor_preserves_seq (w : World) (src a : Nat) (dd : SessionData)
    (h1 : heapLookup ((Session.copyCtor w src).1).heap a = some dd) :
    ∃ d0, heapLookup w.heap a = some d0 ∧
      dd.mRecvSeq = d0.mRecvSeq ∧ dd.mSendSeq = d0.mSendSeq := by
  cases hsrc : heapLookup w.heap src with
  | none =>
      simp only [Session.copyCtor, hsrc] at h1
      exact ⟨dd, h1, rfl, rfl⟩
  | some d0 =>
      simp only [Session.copyCtor, hsrc] at h1
      rcases heapLookup_update_cases w.heap src _ a dd h1 with hc | hc
      · obtain ⟨hab, hdv, _⟩ := hc
        subst hab
        exact ⟨d0, hsrc, by rw [hdv], by rw [hdv]⟩
      · exact ⟨dd, hc, rfl, rfl⟩

theorem copyCtor_map_fst (w : World) (src : Nat) :
    (((Session.copyCtor w src).1).heap.map Prod.fst) = w.heap.map Prod.fst := by
  cases hsrc : heapLookup w.heap src with
  | none => simp only [Session.copyCtor, hsrc]
  | some d0 =>
      simp only [Session.copyCtor, hsrc]
      exact heapUpdate_map_fst w.heap src _

theorem dtor_preserves_seq (w : World) (hdl a : Nat)
    (hnd : (w.heap.map Prod.fst).Nodup) (dd : SessionData)
    (h1 : heapLookup (Session.dtor w hdl).heap a = some dd) :
    ∃ d0, heapLookup w.heap a = some d0 ∧
      dd.mRecvSeq = d0.mRecvSeq ∧ dd.mSendSeq = d0.mSendSeq := by
  cases hl : heapLookup w.heap hdl with
  | none =>
      simp only [Session.dtor, hl] at h1
      exact ⟨dd, h1, rfl, rfl⟩
  | some d =>
      by_cases hc0 : d.mRefCt - 1 ≤ 0
      · simp only [Session.dtor, hl, if_pos hc0, World.deleteRec] at h1
        by_cases hah : a = hdl
        · subst hah
          rw [heapRemove_lookup_self_nodup w.heap a hnd] at h1
          exact Option.noConfusion h1
        · rw [heapLookup_remove_ne w.heap hdl a hah] at h1
          exact ⟨dd, h1, rfl, rfl⟩
      · simp only [Session.dtor, hl, if_neg hc0] at h1
        rcases heapLookup_update_cases w.heap hdl _ a dd h1 with hc | hc
        · obtain ⟨hab, hdv, _⟩ := hc
          subst hab
          exact ⟨d, hl, by rw [hdv], by rw [hdv]⟩
        · exact ⟨dd, hc, rfl, rfl⟩

theorem assign_preserves_seq (w : World) (dst src a : Nat)
    (hnd : (w.heap.map Prod.fst).Nodup) (dd : SessionData)
    (h1 : heapLookup ((Session.assign w dst src).1).heap a = some dd) :
    ∃ d0, heapLookup w.heap a = some d0 ∧
      dd.mRecvSeq = d0.mRecvSeq ∧ dd.mSendSeq = d0.mSendSeq := by
  by_cases he : dst = src
  · simp only [Session.assign, if_pos he] at h1
    exact ⟨dd, h1, rfl, rfl⟩
  · simp only [Session.assign, if_neg he] at h1
    have hnd2 : ((((Session.copyCtor w src).1).heap).map Prod.fst).Nodup := by
      rw [copyCtor_map_fst]
      exact hnd
    obtain ⟨dm, hm, hr1, hs1⟩ :=
      dtor_preserves_seq (Session.copyCtor w src).1 dst a hnd2 dd h1
    obtain ⟨d0, h0, hr2, hs2⟩ := copyCtor_preserves_seq w src a dm hm
    exact ⟨d0, h0, hr1.trans hr2, hs1.trans hs2⟩

/-- Claim C6: the stored sequence numbers strictly increase across every
accepted test-set call in their direction, rejected calls leave the record
unchanged, and no operation other than re-initialization changes them:
`Touch`, copy construction, default construction, destruction of a handle
(also of the surviving record of the dropped handle itself, when other
handles keep it alive), and assignment all preserve the stored sequence
numbers of every record still in the heap.  The `Nodup` hypothesis on the
heap's addresses encodes that each live record sits at exactly one address,
which the allocator guarantees. -/
theorem Session.seq_monotone (d : SessionData) (s : Nat) (rel : Bool) (now : Nat)
    (w : World) (src dst hdl a : Nat) :
    ((Session.TestSetRecvSeq d s rel).1 = true →
      d.mRecvSeq < (Session.TestSetRecvSeq d s rel).2.mRecvSeq ∧
      (Session.TestSetRecvSeq d s rel).2.mSendSeq = d.mSendSeq) ∧
    ((Session.TestSetRecvSeq d s rel).1 = false →
      (Session.TestSetRecvSeq d s rel).2 = d) ∧
    ((Session.TestSetSendSeq d s rel).1 = true →
      d.mSendSeq < (Session.TestSetSendSeq d s rel).2.mSendSeq ∧
      (Session.TestSetSendSeq d s rel).2.mRecvSeq = d.mRecvSeq) ∧
    ((Session.TestSetSendSeq d s rel).1 = false →
      (Session.TestSetSendSeq d s rel).2 = d) ∧
    ((Session.Touch d now).mRecvSeq = d.mRecvSeq ∧
     (Session.Touch d now).mSendSeq = d.mSendSeq) ∧
    (∀ d1, heapLookup ((Session.copyCtor w src).1).heap a = some d1 →
      ∃ d0, heapLookup w.heap a = some d0 ∧
        d1.mRecvSeq = d0.mRecvSeq ∧ d1.mSendSeq = d0.mSendSeq) ∧
    (∀ d1, heapLookup ((Session.defaultCtor w).1).heap a = some d1 →
      ∃ d0, heapLookup w.heap a = some d0 ∧
        d1.mRecvSeq = d0.mRecvSeq ∧ d1.mSendSeq = d0.mSendSeq) ∧
    ((w.heap.map Prod.fst).Nodup →
      ∀ d1, heapLookup (Session.dtor w hdl).heap a = some d1 →
        ∃ d0, heapLookup w.heap a = some d0 ∧
          d1.mRecvSeq = d0.mRecvSeq ∧ d1.mSendSeq = d0.mSendSeq) ∧
    ((w.heap.map Prod.fst).Nodup →
      ∀ d1, heapLookup ((Session.assign w dst src).1).heap a = some d1 →
        ∃ d0, heapLookup w.heap a = some d0 ∧
          d1.mRecvSeq = d0.mRecvSeq ∧ d1.mSendSeq = d0.mSendSeq) := by
  refine ⟨?_, testSetRecv_snd_of_false d s rel, ?_, testSetSend_snd_of_false d s rel,
          ⟨rfl, rfl⟩, ?_, ?_, ?_, ?_⟩
  · intro h1
    rw [testSetRecv_snd_of_true d s rel h1]
    refine ⟨?_, rfl⟩
    show d.mRecvSeq < s
    rcases (testSetRecv_fst_iff d s rel).mp h1 with ⟨_, hs1⟩ | ⟨_, hs1⟩ <;> omega
  · intro h1
    rw [testSetSend_snd_of_true d s rel h1]
    refine ⟨?_, rfl⟩
    show d.mSendSeq < s
    rcases (testSetSend_fst_iff d s rel).mp h1 with ⟨_, hs1⟩ | ⟨_, hs1⟩ <;> omega
  · intro d1 hl1
    exact copyCtor_preserves_seq w src a d1 hl1
  · intro d1 hl1
    cases hsrc : heapLookup w.heap sentinelAddr with
    | none =>
        simp only [Session.defaultCtor, hsrc] at hl1
        exact ⟨d1, hl1, rfl, rfl⟩
    | some d0 =>
        simp only [Session.defaultCtor, hsrc] at hl1
        rcases heapLookup_update_cases w.heap sentinelAddr _ a d1 hl1 with hc | hc
        · obtain ⟨hab, hdv, _⟩ := hc
          subst hab
          exact ⟨d0, hsrc, by rw [hdv], by rw [hdv]⟩
        · exact ⟨d1, hc, rfl, rfl⟩
  · intro hnd d1 h1
    exact dtor_preserves_seq w hdl a hnd d1 h1
  · intro hnd d1 h1
    exact assign_preserves_seq w dst src a hnd d1 h1

/-- Witness for C6: a concrete accepted receive test-set strictly increases
the stored receive sequence number, and destroying one of two handles to a
shared record leaves the surviving record's sequence numbers unchanged, by
the monotonicity theorem. -/
theorem Session.seq_monotone_witness :
    ((Session.TestSetRecvSeq SessionData.initData 5 false).1 = true) ∧
    (SessionData.initData.mRecvSeq <
       (Session.TestSetRecvSeq SessionData.initData 5 false).2.mRecvSeq ∧
     (Session.TestSetRecvSeq SessionData.initData 5 false).2.mSendSeq =
       SessionData.initData.mSendSeq) ∧
    ((wShared.heap.map Prod.fst).Nodup ∧
      heapLookup (Session.dtor wShared 1).heap 1 =
        some { sharedRec with mRefCt := sharedRec.mRefCt - 1 }) ∧
    (∃ d0, heapLookup wShared.heap 1 = some d0 ∧
      ({ sharedRec with mRefCt := sharedRec.mRefCt - 1 } : SessionData).mRecvSeq =
        d0.mRecvSeq ∧
      ({ sharedRec with mRefCt := sharedRec.mRefCt - 1 } : SessionData).mSendSeq =
        d0.mSendSeq) :=
  ⟨by decide,
   (Session.seq_monotone SessionData.initData 5 false 0 World.initWorld 0 0 0 0).1
     (by decide),
   ⟨by decide, by decide⟩,
   (Session.seq_monotone SessionData.initData 5 false 0 wShared 0 0 1 1).2.2.2.2.2.2.2.1
     (by decide) { sharedRec with mRefCt := sharedRec.mRefCt - 1 } (by decide)⟩

theorem defaultCtor_snd (w : World) : (Session.defaultCtor w).2 = sentinelAddr := by
  unfold Session.defaultCtor
  cases heapLookup w.heap sentinelAddr <;> rfl

/-- Claim C8: every default-constructed handle binds to the shared invalid
sentinel record: the returned handle is the sentinel address, the bound
record keeps identifier 0 (only its reference count grows), it is not
valid, and a second default-constructed handle binds to the same address,
hence observes the same record state. -/
theorem Session.default_handle_sentinel (w : World) (d : SessionData)
    (hs : heapLookup w.heap sentinelAddr = some d) (hid : d.mId = 0) :
    (Session.defaultCtor w).2 = sentinelAddr ∧
    heapLookup ((Session.defaultCtor w).1).heap sentinelAddr =
      some { d with mRefCt := d.mRefCt + 1 } ∧
    ({ d with mRefCt := d.mRefCt + 1 } : SessionData).mId = 0 ∧
    Session.IsValid { d with mRefCt := d.mRefCt + 1 } = false ∧
    (Session.defaultCtor ((Session.defaultCtor w).1)).2 = sentinelAddr := by
  refine ⟨defaultCtor_snd w, ?_, hid, ?_, defaultCtor_snd _⟩
  · simp only [Session.defaultCtor, hs]
    exact heapLookup_update_self w.heap sentinelAddr _ d hs
  · simp [Session.IsValid, hid]

/-- Witness for C8: in the startup world the default constructor hands back
the sentinel address and an invalid record, by the sentinel theorem. -/
theorem Session.default_handle_sentinel_witness :
    (heapLookup World.initWorld.heap sentinelAddr = some SessionData.initData ∧
      SessionData.initData.mId = 0) ∧
    ((Session.defaultCtor World.initWorld).2 = sentinelAddr ∧
      Session.IsValid
        { SessionData.initData with mRefCt := SessionData.initData.mRefCt + 1 } = false) :=
  ⟨⟨by decide, by decide⟩,
   ⟨(Session.default_handle_sentinel World.initWorld SessionData.initData
       (by decide) (by decide)).1,
    (Session.default_handle_sentinel World.initWorld SessionData.initData
       (by decide) (by decide)).2.2.2.1⟩⟩

theorem initBody_lookup (w : World) (h now : Nat) (attr : EncryptAttributes)
    (k c : Option Nat) (tid : Nat) (d : SessionData)
    (hl : heapLookup w.heap h = some d) :
    heapLookup (Session.InitBody w h now attr k c tid).heap h =
      some { d with
        mId := if 0 < tid then tid else (Session.GetNextSessionId w.gNext).1,
        mIsRemote := decide (0 < tid),
        mEncryptAttr := attr, mKeyP := k, mCertP := c,
        mRecvSeq := 0, mSendSeq := 0, mLastAction := now } := by
  by_cases ht : 0 < tid
  · simp only [Session.InitBody, hl, if_pos ht]
    rw [heapLookup_update_self w.heap h _ d hl]
    simp [ht]
  · simp only [Session.InitBody, hl, if_neg ht]
    rw [heapLookup_update_self w.heap h _ d hl]
    simp [ht]

/-- Claim C5: after `Init(attr, key, cert, explicitId)` the record the handle
is bound to has: identifier `explicitId` and the remote flag when
`explicitId > 0`; otherwise the generator's non-zero value and the local
flag; and in both cases the supplied attributes, key and certificate, with
both sequence counters 0. -/
theorem Session.init_post (w : World) (h now tid : Nat) (attr : EncryptAttributes)
    (k c : Option Nat) (d : SessionData)
    (hl : heapLookup w.heap h = some d)
    (hg : w.gNext ≠ 0) :
    ∃ dn, heapLookup ((Session.InitFull w h now attr k c tid).1).heap
            ((Session.InitFull w h now attr k c tid).2) = some dn ∧
      (0 < tid → dn.mId = tid ∧ dn.mIsRemote = true) ∧
      (tid = 0 → dn.mId = w.gNext ∧ dn.mId ≠ 0 ∧ dn.mIsRemote = false) ∧
      dn.mEncryptAttr = attr ∧ dn.mKeyP = k ∧ dn.mCertP = c ∧
      dn.mRecvSeq = 0 ∧ dn.mSendSeq = 0 := by
  by_cases hsh : 1 < d.mRefCt
  · have hno : ¬(d.mRefCt - 1 ≤ 0) := by omega
    simp only [Session.InitFull, hl, if_pos hsh, if_neg hno]
    have hl2 : heapLookup
        ((w.nextAddr, SessionData.initData) ::
          heapUpdate w.heap h { d with mRefCt := d.mRefCt - 1 }) w.nextAddr =
        some SessionData.initData := by
      simp [heapLookup]
    refine ⟨_, initBody_lookup _ w.nextAddr now attr k c tid SessionData.initData hl2,
            ?_, ?_, rfl, rfl, rfl, rfl, rfl⟩
    · intro ht
      refine ⟨?_, ?_⟩
      · show (if 0 < tid then tid else _) = tid
        rw [if_pos ht]
      · show decide (0 < tid) = true
        simp [ht]
    · intro ht0
      subst ht0
      refine ⟨?_, ?_, ?_⟩
      · show (if 0 < 0 then 0 else (Session.GetNextSessionId w.gNext).1) = w.gNext
        simp [Session.GetNextSessionId]
      · show (if 0 < 0 then 0 else (Session.GetNextSessionId w.gNext).1) ≠ 0
        simpa [Session.GetNextSessionId] using hg
      · show decide (0 < 0) = false
        rfl
  · simp only [Session.InitFull, hl, if_neg hsh]
    refine ⟨_, initBody_lookup w h now attr k c tid d hl,
            ?_, ?_, rfl, rfl, rfl, rfl, rfl⟩
    · intro ht
      refine ⟨?_, ?_⟩
      · show (if 0 < tid then tid else _) = tid
        rw [if_pos ht]
      · show decide (0 < tid) = true
        simp [ht]
    · intro ht0
      subst ht0
      refine ⟨?_, ?_, ?_⟩
      · show (if 0 < 0 then 0 else (Session.GetNextSessionId w.gNext).1) = w.gNext
        simp [Session.GetNextSessionId]
      · show (if 0 < 0 then 0 else (Session.GetNextSessionId w.gNext).1) ≠ 0
        simpa [Session.GetNextSessionId] using hg
      · show decide (0 < 0) = false
        rfl

/-- Witness for C5: a concrete remote initialization in the startup world,
by the initialization postcondition theorem. -/
theorem Session.init_post_witness :
    (heapLookup World.initWorld.heap 0 = some SessionData.initData ∧
      World.initWorld.gNext ≠ 0) ∧
    (∃ dn, heapLookup
        ((Session.InitFull World.initWorld 0 100 blowfishAttr (some 3) (some 4) 5).1).heap
        ((Session.InitFull World.initWorld 0 100 blowfishAttr (some 3) (some 4) 5).2) =
          some dn ∧
      (0 < 5 → dn.mId = 5 ∧ dn.mIsRemote = true) ∧
      ((5 : Nat) = 0 → dn.mId = World.initWorld.gNext ∧ dn.mId ≠ 0 ∧ dn.mIsRemote = false) ∧
      dn.mEncryptAttr = blowfishAttr ∧ dn.mKeyP = some 3 ∧ dn.mCertP = some 4 ∧
      dn.mRecvSeq = 0 ∧ dn.mSendSeq = 0) :=
  ⟨⟨by decide, by decide⟩,
   Session.init_post World.initWorld 0 100 5 blowfishAttr (some 3) (some 4)
     SessionData.initData (by decide) (by decide)⟩

theorem initBody_lookup_ne (w : World) (h now : Nat) (attr : EncryptAttributes)
    (k c : Option Nat) (tid : Nat) (a : Nat) (ha : a ≠ h) :
    heapLookup (Session.InitBody w h now attr k c tid).heap a = heapLookup w.heap a := by
  cases hl : heapLookup w.heap h with
  | none => simp [Session.InitBody, hl]
  | some d =>
      by_cases ht : 0 < tid
      · simp only [Session.InitBody, hl, if_pos ht]
        exact heapLookup_update_ne w.heap h _ a ha
      · simp only [Session.InitBody, hl, if_neg ht]
        exact heapLookup_update_ne w.heap h _ a ha

theorem initBody_freed (w : World) (h now : Nat) (attr : EncryptAttributes)
    (k c : Option Nat) (tid : Nat) :
    (Session.InitBody w h now attr k c tid).freedKeys = w.freedKeys ∧
    (Session.InitBody w h now attr k c tid).freedCerts = w.freedCerts := by
  cases hl : heapLookup w.heap h with
  | none => simp [Session.InitBody, hl]
  | some d =>
      by_cases ht : 0 < tid
      · simp [Session.InitBody, hl, ht]
      · simp [Session.InitBody, hl, ht]

/-- Claim C3: re-initializing a handle whose record is shared (reference
count > 1) never mutates the state any other handle observes: the handle
re-binds to the freshly allocated address and the initialization is applied
there; the previously shared record keeps its entire payload with only its
reference count decremented by one (which stays positive, so nothing is
freed — no key or certificate is released), and every other record is
untouched. -/
theorem Session.init_shared_detach_frame (w : World) (h now tid : Nat)
    (attr : EncryptAttributes) (k c : Option Nat) (d : SessionData)
    (hl : heapLookup w.heap h = some d) (hsh : 1 < d.mRefCt)
    (hfresh : heapLookup w.heap w.nextAddr = none) :
    (Session.InitFull w h now attr k c tid).2 = w.nextAddr ∧
    (Session.InitFull w h now attr k c tid).2 ≠ h ∧
    heapLookup ((Session.InitFull w h now attr k c tid).1).heap h =
      some { d with mRefCt := d.mRefCt - 1 } ∧
    (∀ a, a ≠ h → a ≠ w.nextAddr →
      heapLookup ((Session.InitFull w h now attr k c tid).1).heap a =
        heapLookup w.heap a) ∧
    ((Session.InitFull w h now attr k c tid).1).freedKeys = w.freedKeys ∧
    ((Session.InitFull w h now attr k c tid).1).freedCerts = w.freedCerts ∧
    heapLookup ((Session.InitFull w h now attr k c tid).1).heap w.nextAddr =
      some { SessionData.initData with
        mId := if 0 < tid then tid else (Session.GetNextSessionId w.gNext).1,
        mIsRemote := decide (0 < tid),
        mEncryptAttr := attr, mKeyP := k, mCertP := c,
        mRecvSeq := 0, mSendSeq := 0, mLastAction := now } := by
  have hno : ¬(d.mRefCt - 1 ≤ 0) := by omega
  have hnh : h ≠ w.nextAddr := by
    intro he
    rw [he, hfresh] at hl
    exact Option.noConfusion hl
  have hl2 : heapLookup
      ((w.nextAddr, SessionData.initData) ::
        heapUpdate w.heap h { d with mRefCt := d.mRefCt - 1 }) w.nextAddr =
      some SessionData.initData := by
    simp [heapLookup]
  simp only [Session.InitFull, hl, if_pos hsh, if_neg hno]
  refine ⟨?_, hnh.symm, ?_, ?_, ?_, ?_, ?_⟩
  · trivial
  · rw [initBody_lookup_ne _ _ now attr k c tid h hnh]
    show heapLookup ((w.nextAddr, SessionData.initData) ::
      heapUpdate w.heap h { d with mRefCt := d.mRefCt - 1 }) h = _
    simp only [heapLookup, if_neg hnh]
    exact heapLookup_update_self w.heap h _ d hl
  · intro a ha hna
    rw [initBody_lookup_ne _ _ now attr k c tid a hna]
    show heapLookup ((w.nextAddr, SessionData.initData) ::
      heapUpdate w.heap h { d with mRefCt := d.mRefCt - 1 }) a = _
    simp only [heapLookup, if_neg hna]
    exact heapLookup_update_ne w.heap h _ a ha
  · exact (initBody_freed _ _ now attr k c tid).1
  · exact (initBody_freed _ _ now attr k c tid).2
  · exact initBody_lookup _ w.nextAddr now attr k c tid SessionData.initData hl2

/-- Witness for C3: in a concrete world a shared handle detaches on Init —
it re-binds to the fresh address 2, the shared record at address 1 keeps
its payload with reference count decremented, and the sentinel record at
address 0 is untouched — by the detach frame theorem. -/
theorem Session.init_shared_detach_frame_witness :
    (heapLookup wShared.heap 1 = some sharedRec ∧ 1 < sharedRec.mRefCt ∧
      heapLookup wShared.heap wShared.nextAddr = none) ∧
    ((Session.InitFull wShared 1 0 blowfishAttr none none 0).2 = wShared.nextAddr ∧
     heapLookup ((Session.InitFull wShared 1 0 blowfishAttr none none 0).1).heap 1 =
       some { sharedRec with mRefCt := sharedRec.mRefCt - 1 } ∧
     heapLookup ((Session.InitFull wShared 1 0 blowfishAttr none none 0).1).heap 0 =
       heapLookup wShared.heap 0) :=
  ⟨⟨by decide, by decide, by decide⟩,
   ⟨(Session.init_shared_detach_frame wShared 1 0 0 blowfishAttr none none sharedRec
       (by decide) (by decide) (by decide)).1,
    (Session.init_shared_detach_frame wShared 1 0 0 blowfishAttr none none sharedRec
       (by decide) (by decide) (by decide)).2.2.1,
    (Session.init_shared_detach_frame wShared 1 0 0 blowfishAttr none none sharedRec
       (by decide) (by decide) (by decide)).2.2.2.1 0 (by decide) (by decide)⟩⟩

/-- Claim C7 fails on the code: in the leak scenario, after the last handle
to the record is dropped, only key 11 and certificate 21 have ever been
released, key 10 and certificate 20 are not in any live record and were
never released — `Session::Init` overwrites the owned `mKeyP`/`mCertP` of
an unshared record without `delete`ing them, so the first key and
certificate leak. -/
theorem Session.init_overwrite_leak_eval :
    leakTraceWorld.freedKeys = [11] ∧
    leakTraceWorld.freedCerts = [21] ∧
    leakTraceWorld.heap.all
      (fun p => (p.2.mKeyP != some 10) && (p.2.mCertP != some 20)) = true ∧
    leakTraceWorld.freedKeys.contains 10 = false ∧
    leakTraceWorld.freedCerts.contains 20 = false := by
  refine ⟨?_, ?_, ?_, ?_, ?_⟩ <;> decide

/-- Claim C9 fails on the code: line 244 of the verbose dump streams
`*(mRefP->mKeyP)` under the "Certificate: " label.  On a record whose
certificate is present but whose key is NULL the dump dereferences the NULL
key (modelled as `none`) instead of rendering the certificate as such; and
on a record with both present, the item after the "Certificate: " label is
the key object 3 — no certificate object appears anywhere in the output. -/
theorem Session.dump_verbose_cert_bug_eval :
    Session.DumpVerbose certOnlyRec = none ∧
    Session.DumpVerbose keyCertRec =
      some [OutTok.text "Session (Id=", OutTok.num 8,
            OutTok.text "  LastAction  = ", OutTok.timeText 0,
            OutTok.text "  EncryptAttr = ", OutTok.attrObj EncryptAttributes.defaultAttr,
            OutTok.text "  RecvSeq     = ", OutTok.num 0,
            OutTok.text "  SendSeq     = ", OutTok.num 0,
            OutTok.text "  SymmetricKey: ", OutTok.keyObj 3,
            OutTok.text "Certificate: ", OutTok.keyObj 3] :=
  ⟨rfl, rfl⟩
